import Mathlib

/-!
Shallow Lean embedding of the agent-orchestration core of the
internet-search-agent repository:

* `src/src/graphs/simple_search_agent.py` — simple Q&A graph,
* `src/src/graphs/workflow_agent.py` — multi-section report graph,
* `src/src/services/state_parser.py` — state-history reconstruction.

External collaborators (the language model, the web-search service, the
page-content-fetch service, `datetime` parsing) are modelled as explicit
oracle parameters; everything else is translated from the Python source.
Python strings are Lean `String`s; Python dicts with string keys/values are
association lists looked up front-to-back.
-/

/-- The ASCII apostrophe character (Python `"'"`). -/
def squote : Char := Char.ofNat 39

/-- The ASCII double-quote character (Python `'"'`). -/
def dquote : Char := Char.ofNat 34

/-- Python `str.replace(pat, repl)` on character lists: replaces every
non-overlapping occurrence of `pat` left to right.  The `fuel` argument is
the length of the scanned list, enough for the scan to finish. -/
def replaceAllAux (pat repl : List Char) : Nat → List Char → List Char
  | 0, s => s
  | Nat.succ fuel, s =>
    match s with
    | [] => []
    | c :: rest =>
      if pat ≠ [] ∧ pat.isPrefixOf s then
        repl ++ replaceAllAux pat repl fuel (s.drop pat.length)
      else
        c :: replaceAllAux pat repl fuel rest

/-- Python `s.replace(pat, repl)` for strings (`pat` nonempty in all uses). -/
def pyReplace (pat repl s : String) : String :=
  ⟨replaceAllAux pat.data repl.data s.data.length s.data⟩

/-- Python `sep.join(xs)`. -/
def joinSep (sep : String) : List String → String
  | [] => ""
  | [a] => a
  | a :: b :: rest => a ++ sep ++ joinSep sep (b :: rest)

/-- `src/models/search_schemas.py`: `BingSearchResult` — pydantic model with
`content: str | None = None`. -/
structure BingSearchResult where
  body : String
  href : String
  title : String
  index : Nat
  content : Option String := none
  deriving Repr, DecidableEq

/-- A raw search-result item: a Python dict with string keys and values
(the collaborator interface's `{snippet, link, name}` shape), modelled as an
association list in insertion order. -/
structure RawItem where
  entries : List (String × String)
  deriving Repr, DecidableEq

/-- Python `item.get(key, default)` for a string-valued dict. -/
def RawItem.get (it : RawItem) (key default : String) : String :=
  match it.entries.lookup key with
  | some v => v
  | none => default

/-!  ### Simple agent: `src/src/graphs/simple_search_agent.py`  -/

/-- The placeholder result synthesized by `run_search` when the parsed
result list is empty (`simple_search_agent.py` lines 49-59). -/
def noResultsPlaceholder : BingSearchResult :=
  { body := "No search results found", href := "", title := "No Results", index := 1 }

/-- The normalization loop of `run_search` (`simple_search_agent.py` lines
62-71): `for i, item in enumerate(results_list)` starting at `i`, mapping
`snippet→body`, `link→href`, `name→title`, `index = i + 1`. -/
def normalizeSimpleFrom : Nat → List RawItem → List BingSearchResult
  | _, [] => []
  | i, item :: rest =>
    { body := item.get "snippet" ""
      href := item.get "link" ""
      title := item.get "name" ""
      index := i + 1 } :: normalizeSimpleFrom (i + 1) rest

/-- `run_search`'s normalization over the whole parsed list (enumeration
starts at 0). -/
def normalizeSimple (l : List RawItem) : List BingSearchResult :=
  normalizeSimpleFrom 0 l

/-!  JSON decoding used by `run_search`:
`json.loads(results_json.replace("'", '"'))`.  `json.loads` is modelled for
the collaborator-interface shape actually exchanged here: a top-level JSON
array of flat objects with (escape-free) string keys and string values and
no insignificant whitespace.  On any other input the model returns `none`,
standing for the `json.JSONDecodeError` exception propagating out of
`run_search`. -/

/-- Scan the body of a JSON string literal up to its closing double quote;
returns the scanned characters and the remaining input.  (No `\`-escape
handling: the modelled inputs contain none.) -/
def scanStringBody : List Char → Option (List Char × List Char)
  | [] => none
  | c :: rest =>
    if c = dquote then some ([], rest)
    else
      match scanStringBody rest with
      | some (s, r) => some (c :: s, r)
      | none => none

/-- Parse a double-quoted JSON string literal. -/
def parseStringLit : List Char → Option (String × List Char)
  | [] => none
  | c :: rest =>
    if c = dquote then
      match scanStringBody rest with
      | some (s, r) => some (⟨s⟩, r)
      | none => none
    else none

/-- Parse one `"key":"value"` pair. -/
def parseKV (s : List Char) : Option ((String × String) × List Char) :=
  match parseStringLit s with
  | none => none
  | some (k, r1) =>
    match r1 with
    | ':' :: r2 =>
      match parseStringLit r2 with
      | none => none
      | some (v, r3) => some ((k, v), r3)
    | _ => none

/-- Parse the pairs of a nonempty object body, consuming the closing `}`. -/
def parseObjTail (fuel : Nat) (s : List Char) : Option (List (String × String) × List Char) :=
  match fuel with
  | 0 => none
  | Nat.succ fuel =>
    match parseKV s with
    | none => none
    | some (kv, r) =>
      match r with
      | ',' :: r2 =>
        match parseObjTail fuel r2 with
        | some (l, rr) => some (kv :: l, rr)
        | none => none
      | '}' :: r2 => some ([kv], r2)
      | _ => none

/-- Parse one flat JSON object. -/
def parseObj (fuel : Nat) (s : List Char) : Option (RawItem × List Char) :=
  match s with
  | '{' :: c :: r =>
    if c = '}' then some (⟨[]⟩, r)
    else
      match parseObjTail fuel (c :: r) with
      | some (l, rr) => some (⟨l⟩, rr)
      | none => none
  | _ => none

/-- Parse the items of a nonempty array body, consuming the closing `]`. -/
def parseArrTail (fuel : Nat) (s : List Char) : Option (List RawItem × List Char) :=
  match fuel with
  | 0 => none
  | Nat.succ fuel =>
    match parseObj fuel s with
    | none => none
    | some (it, r) =>
      match r with
      | ',' :: r2 =>
        match parseArrTail fuel r2 with
        | some (l, rr) => some (it :: l, rr)
        | none => none
      | ']' :: r2 => some ([it], r2)
      | _ => none

/-- `json.loads` restricted to the collaborator-interface shape: a JSON
array of flat string-to-string objects.  `none` models a raised
`JSONDecodeError` (or a non-list value reaching the list-only consumer). -/
def jsonLoadsList (s : String) : Option (List RawItem) :=
  match s.data with
  | '[' :: r =>
    match r with
    | [']'] => some []
    | _ =>
      match parseArrTail s.data.length r with
      | some (l, []) => some l
      | _ => none
  | _ => none

/-- `run_search` (`simple_search_agent.py` lines 36-73), from the search
service's textual response to the `search_results` delta.  The query
formulation via the language model does not affect the returned delta and is
omitted; `none` models the run aborting on a parse exception. -/
def run_search (results_json : String) : Option (List BingSearchResult) :=
  match jsonLoadsList (pyReplace ⟨[squote]⟩ ⟨[dquote]⟩ results_json) with
  | none => none
  | some results_list =>
    if results_list.isEmpty then some [noResultsPlaceholder]
    else some (normalizeSimple results_list)

/-- `src/models/schemas.py`: `CustomState` — the simple graph's state
(message contents only; role tags are irrelevant to the modelled claims). -/
structure CustomState where
  messages : List String
  should_search : Bool
  search_results : List BingSearchResult
  deriving Repr, DecidableEq

/-- `generate_answer` (`simple_search_agent.py` lines 101-116) as a state
update: the system prompt assembly and the completion call are opaque text
manipulation (oracle `llm`), the returned delta appends the completion's
message and sets `search_results` to `[]`. -/
def generate_answer_simple (llm : List String → String) (system_message : String)
    (s : CustomState) : CustomState :=
  { s with
    messages := s.messages ++ [llm (system_message :: s.messages)]
    search_results := [] }

/-!  ### Report agent: `src/src/graphs/workflow_agent.py`  -/

/-- Outcome of one call to the page-content-fetch collaborator
(`requests.post(...)/response.json()` in `_crawl_single_url`): either an
HTTP-level success whose JSON body carries a `success` flag and an optional
`markdown` field, or one of the three exception classes the source catches. -/
inductive FetchOutcome where
  | ok (success : Bool) (markdown : Option String)
  | requestError (msg : String)
  | valueError (msg : String)
  | otherError (msg : String)
  deriving Repr, DecidableEq

/-- `_crawl_single_url` (`workflow_agent.py` lines 67-98): total — every
exception class is caught and turned into a descriptive string; a missing or
unsuccessful body yields the final `return ""`. -/
def crawl_single_url (fetch : String → FetchOutcome) (url : String) : String :=
  if url = "" then ""
  else
    match fetch url with
    | .ok success markdown => if success then markdown.getD "" else ""
    | .requestError e => "Failed to crawl content: Network error - " ++ e
    | .valueError e => "Failed to crawl content: Invalid response format - " ++ e
    | .otherError e => "Failed to crawl content: Unexpected error - " ++ e

/-- The `for i, item in enumerate(results_list)` loop of `_sync_crawl_urls`
(`workflow_agent.py` lines 116-128): note `title` is read from the key
`"title"`, and `content = _crawl_single_url(url, base_url) if url else ""`. -/
def syncCrawlFrom (fetch : String → FetchOutcome) : Nat → List RawItem → List BingSearchResult
  | _, [] => []
  | i, item :: rest =>
    let url := item.get "link" ""
    { body := item.get "snippet" ""
      href := url
      title := item.get "title" ""
      index := i + 1
      content := some (if url = "" then "" else crawl_single_url fetch url) }
      :: syncCrawlFrom fetch (i + 1) rest

/-- `_sync_crawl_urls` (`workflow_agent.py` lines 101-130). -/
def sync_crawl_urls (fetch : String → FetchOutcome) (results_list : List RawItem) :
    List BingSearchResult :=
  if results_list.isEmpty then [] else syncCrawlFrom fetch 0 results_list

/-- A value returned by `ast.literal_eval` on the search service's response
in `search_section`: either a list of result items or a dict (the "no good
result" sentinel is the dict `{"Results": "No good Bing Search Result was
found"}`). -/
inductive SearchResp where
  | list (items : List RawItem)
  | dict (entries : List (String × String))
  deriving Repr

/-- Python `not results_list`: the container is empty. -/
def respIsEmpty : SearchResp → Bool
  | .list l => l.isEmpty
  | .dict d => d.isEmpty

/-- Python `"Results" in results_list and results_list["Results"] == "No
good Bing Search Result was found"`: for a dict, key membership plus value
equality; for a list of item dicts, the string `"Results"` is never an
element, so the conjunction is false. -/
def respNoGood : SearchResp → Bool
  | .list _ => false
  | .dict d => d.lookup "Results" == some "No good Bing Search Result was found"

/-- The retry trigger of `search_section` (`workflow_agent.py` lines
149-152 and 174-176). -/
def retryTrigger (r : SearchResp) : Bool :=
  respIsEmpty r || respNoGood r

/-- Iterating a (non-sentinel) dict inside `_sync_crawl_urls` would raise
(`item.get` on a string key): `none` models that; a list passes through. -/
def respItems : SearchResp → Option (List RawItem)
  | .list l => some l
  | .dict _ => none

/-- `max_retries = 2` (`workflow_agent.py` line 147). -/
def maxRetries : Nat := 2

/-- The retry `while` loop of `search_section` (`workflow_agent.py` lines
149-171).  `oracle n` is the search service's (query-formulation plus
search) response to the `n`-th attempt of this node invocation; `attempts`
counts attempts made so far.  Returns the final `results_list` together
with the total number of search attempts performed. -/
def searchLoop (oracle : Nat → SearchResp) (retry_count : Nat) (results : SearchResp)
    (attempts : Nat) : SearchResp × Nat :=
  if h : retry_count < maxRetries then
    if retryTrigger results then
      searchLoop oracle (retry_count + 1) (oracle (attempts + 1)) (attempts + 1)
    else (results, attempts)
  else (results, attempts)
termination_by maxRetries - retry_count

/-- The placeholder synthesized by `search_section` after exhausting
retries (`workflow_agent.py` lines 177-187). -/
def fallbackPlaceholder : BingSearchResult :=
  { body := "No search results found after retry"
    href := ""
    title := "No Results"
    index := 1
    content := some "No content could be found for this section. The section will be drafted using general knowledge." }

/-- The observable outcome of one `search_section` invocation: the
`search_results` delta plus the number of search-service attempts made. -/
structure SearchSectionOut where
  search_results : List BingSearchResult
  attempts : Nat
  deriving Repr, DecidableEq

/-- `search_section` (`workflow_agent.py` lines 133-190).  `none` models an
uncaught exception (indexing `outline[current_idx]` out of range, or
iterating a non-sentinel dict response); otherwise the node returns
normally with its delta. -/
def search_section (oracle : Nat → SearchResp) (fetch : String → FetchOutcome)
    (outline : List String) (current_idx : Nat) : Option SearchSectionOut :=
  if current_idx < outline.length then
    let first := oracle 1
    let res := searchLoop oracle 0 first 1
    if retryTrigger res.1 then some ⟨[fallbackPlaceholder], res.2⟩
    else
      match respItems res.1 with
      | some items => some ⟨sync_crawl_urls fetch items, res.2⟩
      | none => none
  else none

/-- `src/graphs/workflow_agent.py`: `WorkflowState` (message contents only;
`should_search` is consumed before the section loop and omitted from the
loop model's state record). -/
structure WorkflowState where
  messages : List String
  outline : List String
  current_idx : Nat
  search_results : List BingSearchResult
  section_drafts : List String
  deriving Repr, DecidableEq

/-- The executor's merge of `search_section`'s delta
`{"search_results": rs}` into the state. -/
def search_section_apply (rs : List BingSearchResult) (s : WorkflowState) : WorkflowState :=
  { s with search_results := rs }

/-- The executor's merge of `draft_section`'s delta (`workflow_agent.py`
lines 193-218): the draft text itself is the completion service's opaque
output; the delta appends it to `section_drafts` (an absent key behaves as
`[]`, so the `"section_drafts" in state` branch is the same append). -/
def draft_section_apply (draft : String) (s : WorkflowState) : WorkflowState :=
  { s with section_drafts := s.section_drafts ++ [draft] }

/-- `advance_index` (`workflow_agent.py` lines 221-223) merged into the
state. -/
def advance_index (s : WorkflowState) : WorkflowState :=
  { s with current_idx := s.current_idx + 1, search_results := [] }

/-- `should_continue` (`workflow_agent.py` lines 226-229). -/
def should_continue (s : WorkflowState) : String :=
  if s.current_idx + 1 < s.outline.length then "continue" else "finish"

/-- The literal instruction prefix of `compile_report`
(`workflow_agent.py` lines 234-237). -/
def reportIntro : String :=
  "You are the report editor.  Write a 2-3 sentence introduction for the report below, then append the compiled sections unchanged.\n\n"

/-- `compile_report` (`workflow_agent.py` lines 232-239) merged into the
state: the final message is the completion service's response to
`reportIntro ++ "\n\n".join(section_drafts)`. -/
def compile_report (llm : String → String) (s : WorkflowState) : WorkflowState :=
  { s with
    messages := s.messages ++ [llm (reportIntro ++ joinSep "\n\n" s.section_drafts)]
    search_results := []
    outline := []
    current_idx := 0
    section_drafts := [] }

/-- The report graph's `generate_answer` (`workflow_agent.py` lines
242-263) merged into the state; prompt assembly is opaque. -/
def generate_answer_workflow (llm : List String → String) (system_message : String)
    (s : WorkflowState) : WorkflowState :=
  { s with
    messages := s.messages ++ [llm (system_message :: s.messages)]
    search_results := []
    outline := []
    current_idx := 0
    section_drafts := [] }

/-- The section loop of the report graph
(`search_section → draft_section —should_continue→ advance_index → …`),
entered with the state produced by `plan_outline`.  `searchRes k` and
`draftOf k` are the `search_results` delta and the draft text of the `k`-th
cycle (both produced by external collaborators).  Returns the state at the
moment `should_continue` selects `"finish"` (the instant before
`compile_report`) together with the list of every intermediate state the
loop passes through, in order. -/
def runSections (searchRes : Nat → List BingSearchResult) (draftOf : Nat → String)
    (k : Nat) (s : WorkflowState) : WorkflowState × List WorkflowState :=
  let s1 := search_section_apply (searchRes k) s
  let s2 := draft_section_apply (draftOf k) s1
  if h : should_continue s2 = "continue" then
    let s3 := advance_index s2
    let rec' := runSections searchRes draftOf (k + 1) s3
    (rec'.1, s1 :: s2 :: s3 :: rec'.2)
  else (s2, [s1, s2])
termination_by s.outline.length - s.current_idx
decreasing_by
  simp only [s3, s2, s1, should_continue, search_section_apply, draft_section_apply,
    advance_index] at *
  split at h
  · omega
  · simp_all

/-- A full report-mode run after the search decision: `plan_outline` merges
`{"outline": plan, "current_idx": 0}`, the section loop runs, and
`compile_report` fires.  Returns the final state and the full list of
states the run passes through (after each node application). -/
def runReport (plan : List String) (searchRes : Nat → List BingSearchResult)
    (draftOf : Nat → String) (llm : String → String) (s0 : WorkflowState) :
    WorkflowState × List WorkflowState :=
  let sPlan := { s0 with outline := plan, current_idx := 0 }
  let loopOut := runSections searchRes draftOf 0 sPlan
  let sEnd := compile_report llm loopOut.1
  (sEnd, sPlan :: loopOut.2 ++ [sEnd])

/-!  ### State-history parser: `src/src/services/state_parser.py` with the
typed records of `src/src/models/state_schemas.py`.  Timestamps are opaque
instants: `datetime.fromisoformat` is an oracle `String → Option Nat`
(`none` = `ValueError`), `datetime.now()` is an oracle instant `now`. -/

/-- `state_schemas.MessageType`. -/
inductive MessageType where
  | human
  | ai
  deriving Repr, DecidableEq

/-- The `MessageType(x)` constructor: `none` models the `ValueError` raised
on an unknown value. -/
def messageTypeOf (s : String) : Option MessageType :=
  if s = "human" then some .human
  else if s = "ai" then some .ai
  else none

/-- `state_schemas.Message`. -/
structure Message where
  content : String
  type : MessageType
  id : String
  name : Option String
  deriving Repr, DecidableEq

/-- `state_schemas.SearchResult` (the parser-side result record). -/
structure SearchResult where
  body : String
  href : String
  title : String
  index : Int
  content : Option String
  deriving Repr, DecidableEq

/-- `state_schemas.StepInfo` (defaults omitted — the parser fills every
field explicitly). -/
structure StepInfo where
  step_number : Nat
  node_name : String
  timestamp : Nat
  description : String
  messages : List Message
  search_results : List SearchResult
  should_search : Option Bool
  outline : Option (List String)
  current_idx : Option Int
  section_drafts : Option (List String)
  deriving Repr, DecidableEq

/-- `state_schemas.ParsedStateHistory`. -/
structure ParsedStateHistory where
  thread_id : String
  total_steps : Nat
  steps : List StepInfo
  deriving Repr, DecidableEq

/-- A raw message entry inside `state_data['messages']`: a dict with
optional keys, or a non-dict value (skipped by `_parse_messages`). -/
inductive RawMsg where
  | dict (content : Option String) (mtype : Option String) (mid : Option String)
      (mname : Option String)
  | nonDict
  deriving Repr, DecidableEq

/-- A raw result entry inside `state_data['search_results']`: a dict with
optional keys, or a non-dict value (skipped by `_parse_search_results`). -/
inductive RawRes where
  | dict (body href title : Option String) (index : Option Int) (content : Option String)
  | nonDict
  deriving Repr, DecidableEq

/-- The dict shape of a snapshot's `state_data`; absent keys are the
corresponding `.get` defaults (`[]` for the two list fields, `None`
otherwise). -/
structure StateDict where
  messages : List RawMsg
  search_results : List RawRes
  should_search : Option Bool
  outline : Option (List String)
  current_idx : Option Int
  section_drafts : Option (List String)
  deriving Repr, DecidableEq

/-- A snapshot's `state_data` field: a dict or some non-dict value (every
`isinstance(state_data, dict)` guard in the parser takes its else-branch on
the latter). -/
inductive StateData where
  | dict (d : StateDict)
  | nonDict
  deriving Repr, DecidableEq

/-- A snapshot's `metadata` field, as consumed by `_get_node_name`:
`some keys` stands for a truthy dict whose `'writes'` entry is a dict with
key list `keys` (empty `keys` = empty `writes` dict, which is falsy);
`none` stands for every other shape (falsy metadata, missing `'writes'`,
non-dict `writes`). -/
abbrev MetaData := Option (List String)

/-- A snapshot's `run_config` field: a dict (carrying
`config['configurable'].get('thread_id')` when present) or a non-dict value
(then `hasattr(..., 'get')` is false). -/
inductive RunConfig where
  | dict (configurable_thread_id : Option String)
  | nonDict
  deriving Repr, DecidableEq

/-- One raw history snapshot: a tuple-like record.  `record` carries the
six positional fields `[0]`-`[5]` (plus any extras, which the parser never
reads); `short n` stands for a record with `n < 6` positional fields, which
`_parse_single_step` rejects. -/
inductive SnapEntry where
  | record (state_data : StateData) (next_nodes : List String) (config : RunConfig)
      (metadata : MetaData) (timestamp_str : Option String) (parent : Unit) (extra : Nat)
  | short (numFields : Nat)
  deriving Repr

/-- Python list indexing `l[i]` (negative indices count from the end);
`none` models an `IndexError`. -/
def pyListGet (l : List String) (i : Int) : Option String :=
  let j : Int := if i < 0 then (l.length : Int) + i else i
  if 0 ≤ j then l.get? j.toNat else none

/-- Lines 50-52 of `state_parser.py`: `datetime.now()` unless a timestamp
string is present, in which case `fromisoformat` of the string with `'Z'`
replaced by `'+00:00'` (whose failure raises, i.e. `none`).  A Python
`None` (or empty-string) timestamp field is falsy and keeps `now`. -/
def parseTimestamp (fromIso : String → Option Nat) (now : Nat) :
    Option String → Option Nat
  | none => some now
  | some s =>
    if s = "" then some now
    else fromIso (pyReplace "Z" "+00:00" s)

/-- `_get_node_name` (`state_parser.py` lines 85-96). -/
def getNodeName (next_nodes : List String) (metadata : MetaData) : String :=
  match next_nodes with
  | n :: _ => n
  | [] =>
    match metadata with
    | some (k :: _) => k
    | _ => "unknown"

/-- The literal description table of `_get_step_description`
(`state_parser.py` lines 101-116), with `descriptions.get(node_name,
f"Processing {node_name}")`. -/
def baseDescription (node_name : String) : String :=
  if node_name = "__start__" then "🚀 Starting conversation with user query"
  else if node_name = "decide_search" then "🤔 Analyzing if web search is needed"
  else if node_name = "run_search" then "🔍 Searching the web for relevant information"
  else if node_name = "generate_answer" then "💭 Generating response based on available information"
  else if node_name = "plan_outline" then "📋 Creating outline for comprehensive report"
  else if node_name = "search_section" then "🔍 Searching for section-specific information"
  else if node_name = "draft_section" then "✍️ Drafting report section"
  else if node_name = "advance_index" then "➡️ Moving to next section"
  else if node_name = "compile_report" then "📄 Compiling final report"
  else "Processing " ++ node_name

/-- `_get_step_description` (`state_parser.py` lines 98-168).  `none`
models an `IndexError` from `outline[current_idx]` (possible only when
`current_idx` is deeply negative), which the caller's `except` turns into a
skipped step. -/
def getStepDescription (node_name : String) (state_data : StateData) : Option String :=
  let base := baseDescription node_name
  match state_data with
  | .nonDict => some base
  | .dict d =>
    if node_name = "run_search" then
      some (if d.search_results ≠ [] then
        base ++ " (Found " ++ toString d.search_results.length ++ " results)"
      else base)
    else if node_name = "search_section" then
      let outline := (d.outline).getD []
      let current_idx := (d.current_idx).getD 0
      if outline ≠ [] ∧ current_idx < (outline.length : Int) then
        match pyListGet outline current_idx with
        | none => none
        | some section_title =>
          let withTitle := base ++ " for: " ++ section_title
          some (if d.search_results ≠ [] then
            withTitle ++ " (Found " ++ toString d.search_results.length ++ " results)"
          else withTitle)
      else
        some (if d.search_results ≠ [] then
          base ++ " (Found " ++ toString d.search_results.length ++ " results)"
        else base)
    else if node_name = "decide_search" then
      some (match d.should_search with
        | some b => base ++ " (Decision: " ++ (if b then "Search" else "No search") ++ ")"
        | none => base)
    else if node_name = "plan_outline" then
      let outline := (d.outline).getD []
      some (if outline ≠ [] then
        base ++ " (" ++ toString outline.length ++ " sections planned)"
      else base)
    else if node_name = "draft_section" then
      let outline := (d.outline).getD []
      let current_idx := (d.current_idx).getD 0
      if outline ≠ [] ∧ current_idx < (outline.length : Int) then
        match pyListGet outline current_idx with
        | none => none
        | some section_title => some (base ++ " for: " ++ section_title)
      else some base
    else if node_name = "advance_index" then
      let outline := (d.outline).getD []
      let current_idx := (d.current_idx).getD 0
      some (if outline ≠ [] then
        base ++ " (Section " ++ toString (current_idx + 1) ++ "/" ++
          toString outline.length ++ " completed)"
      else base)
    else if node_name = "compile_report" then
      let section_drafts := (d.section_drafts).getD []
      some (if section_drafts ≠ [] then
        base ++ " (" ++ toString section_drafts.length ++ " sections compiled)"
      else base)
    else if node_name = "generate_answer" then
      some (if d.messages.any (fun m =>
          match m with
          | .dict _ t _ _ => t.getD "" = "ai"
          | .nonDict => false) then
        base ++ " (Response generated)"
      else base)
    else some base

/-- One entry of the `_parse_messages` loop (`state_parser.py` lines
179-190): non-dict entries and unknown message types are skipped. -/
def parseMessage : RawMsg → Option Message
  | .nonDict => none
  | .dict c t i n =>
    match messageTypeOf (t.getD "human") with
    | none => none
    | some mt => some { content := c.getD "", type := mt, id := i.getD "", name := n }

/-- `_parse_messages` (`state_parser.py` lines 170-192). -/
def parseMessages : StateData → List Message
  | .nonDict => []
  | .dict d => d.messages.filterMap parseMessage

/-- One entry of the `_parse_search_results` loop (`state_parser.py` lines
203-214): non-dict entries are skipped; `index` defaults to `0`. -/
def parseSearchResult : RawRes → Option SearchResult
  | .nonDict => none
  | .dict b h t i c =>
    some { body := b.getD "", href := h.getD "", title := t.getD "", index := i.getD 0,
           content := c }

/-- `_parse_search_results` (`state_parser.py` lines 194-216). -/
def parseSearchResults : StateData → List SearchResult
  | .nonDict => []
  | .dict d => d.search_results.filterMap parseSearchResult

/-- `state_data.get(key) if isinstance(state_data, dict) else None` for the
scalar workflow fields (`state_parser.py` lines 64-70). -/
def stateShouldSearch : StateData → Option Bool
  | .nonDict => none
  | .dict d => d.should_search

/-- `state_data.get('outline')` guarded by the dict check. -/
def stateOutline : StateData → Option (List String)
  | .nonDict => none
  | .dict d => d.outline

/-- `state_data.get('current_idx')` guarded by the dict check. -/
def stateCurrentIdx : StateData → Option Int
  | .nonDict => none
  | .dict d => d.current_idx

/-- `state_data.get('section_drafts')` guarded by the dict check. -/
def stateSectionDrafts : StateData → Option (List String)
  | .nonDict => none
  | .dict d => d.section_drafts

/-- `_parse_single_step` (`state_parser.py` lines 37-83).  `none` covers
both the explicit `len(state_entry) < 6 → None` and any exception raised
inside the step (bad timestamp, `IndexError` while describing), which the
caller's `try/except` turns into a skipped entry. -/
def parseSingleStep (fromIso : String → Option Nat) (now : Nat) (e : SnapEntry)
    (step_index : Nat) : Option StepInfo :=
  match e with
  | .short _ => none
  | .record state_data next_nodes _ metadata timestamp_str _ _ =>
    match parseTimestamp fromIso now timestamp_str with
    | none => none
    | some ts =>
      let node_name := getNodeName next_nodes metadata
      match getStepDescription node_name state_data with
      | none => none
      | some description =>
        some { step_number := step_index
               node_name := node_name
               timestamp := ts
               description := description
               messages := parseMessages state_data
               search_results := parseSearchResults state_data
               should_search := stateShouldSearch state_data
               outline := stateOutline state_data
               current_idx := stateCurrentIdx state_data
               section_drafts := stateSectionDrafts state_data }

/-- The thread-id candidate read from a snapshot's config
(`state_parser.py` lines 25-26): `state_entry[2].get('configurable',
{}).get('thread_id', '')` when `state_entry[2]` has a `get` attribute. -/
def threadIdOf : SnapEntry → Option String
  | .record _ _ (.dict tid) _ _ _ _ => some (tid.getD "")
  | .record _ _ .nonDict _ _ _ _ => none
  | .short _ => none

/-- The `for i, state_entry in enumerate(reversed(raw_history))` loop of
`parse_state_history` (`state_parser.py` lines 20-29), carried over the
reversed list with the running index, accumulated steps and thread id. -/
def parseLoop (fromIso : String → Option Nat) (now : Nat) :
    List SnapEntry → Nat → List StepInfo → String → List StepInfo × String
  | [], _, steps, tid => (steps, tid)
  | e :: rest, i, steps, tid =>
    match parseSingleStep fromIso now e i with
    | some st =>
      let tid2 := if tid = "" then
          match threadIdOf e with
          | some t => t
          | none => tid
        else tid
      parseLoop fromIso now rest (i + 1) (steps ++ [st]) tid2
    | none => parseLoop fromIso now rest (i + 1) steps tid

/-- `parse_state_history` (`state_parser.py` lines 10-35). -/
def parse_state_history (fromIso : String → Option Nat) (now : Nat)
    (raw_history : List SnapEntry) : ParsedStateHistory :=
  if raw_history.isEmpty then { thread_id := "", total_steps := 0, steps := [] }
  else
    let out := parseLoop fromIso now raw_history.reverse 0 [] ""
    { thread_id := out.2, total_steps := out.1.length, steps := out.1 }

/-!  ### Canonical textual renderings of a search response

`run_search` receives the search service's response as text.  For claim C9
the same list of `{snippet, link, name}` items is rendered once with
single-quoted and once with double-quoted string literals, in canonical
minimal form (no insignificant whitespace), the two quoting conventions the
spec names. -/

/-- Comma-join rendered fragments. -/
def sepJoinC : List (List Char) → List Char
  | [] => []
  | [a] => a
  | a :: b :: rest => a ++ ',' :: sepJoinC (b :: rest)

/-- Render one `key:value` pair with quote character `q`. -/
def renderPairC (q : Char) (kv : String × String) : List Char :=
  q :: kv.1.data ++ q :: ':' :: q :: kv.2.data ++ [q]

/-- Render one item object with quote character `q`. -/
def renderObjC (q : Char) (it : RawItem) : List Char :=
  '{' :: sepJoinC (it.entries.map (renderPairC q)) ++ ['}']

/-- Render a whole response list with quote character `q`. -/
def renderResp (q : Char) (items : List RawItem) : String :=
  ⟨'[' :: sepJoinC (items.map (renderObjC q)) ++ [']']⟩

/-- The backslash character. -/
def bslash : Char := Char.ofNat 92

/-- A string is plain when it contains no quote of either kind and no
backslash — the fragment of response texts on which the modelled
`json.loads` agrees with Python's. -/
def plainStr (s : String) : Prop :=
  squote ∉ s.data ∧ dquote ∉ s.data ∧ bslash ∉ s.data

instance (s : String) : Decidable (plainStr s) := by
  unfold plainStr; infer_instance

/-- Every key and value of every item is plain. -/
def plainItems (items : List RawItem) : Prop :=
  ∀ it ∈ items, ∀ kv ∈ it.entries, plainStr kv.1 ∧ plainStr kv.2

instance (items : List RawItem) : Decidable (plainItems items) := by
  unfold plainItems; infer_instance

/-!  ### Theorems  -/

/-- C6: the partial-state deltas returned by `generate_answer` (both
graphs), `advance_index`, and `compile_report` each set `search_results` to
the empty list, so `search_results` is `[]` immediately after each of those
steps regardless of whether the results were consumed. -/
theorem C6_search_results_cleared
    (llmS : List String → String) (sysS : String) (sS : CustomState)
    (llmW : List String → String) (sysW : String) (llmC : String → String)
    (sW sW2 sW3 : WorkflowState) :
    (generate_answer_simple llmS sysS sS).search_results = [] ∧
    (generate_answer_workflow llmW sysW sW).search_results = [] ∧
    (advance_index sW2).search_results = [] ∧
    (compile_report llmC sW3).search_results = [] :=
  ⟨rfl, rfl, rfl, rfl⟩

lemma normalizeSimpleFrom_map_index (l : List RawItem) :
    ∀ i, (normalizeSimpleFrom i l).map (fun r => r.index) = List.range' (i + 1) l.length := by
  induction l with
  | nil => intro i; rfl
  | cons a t ih =>
    intro i
    simp only [normalizeSimpleFrom, List.map_cons, List.length_cons, List.range'_succ, ih]

lemma syncCrawlFrom_map_index (fetch : String → FetchOutcome) (l : List RawItem) :
    ∀ i, (syncCrawlFrom fetch i l).map (fun r => r.index) = List.range' (i + 1) l.length := by
  induction l with
  | nil => intro i; rfl
  | cons a t ih =>
    intro i
    simp only [syncCrawlFrom, List.map_cons, List.length_cons, List.range'_succ, ih]

/-- C5: each normalized batch (simple-mode `run_search` normalization and
report-mode `_sync_crawl_urls`) has exactly one entry per raw item, with
`index` fields `1, 2, …, N` in order — dense from 1 and in particular
pairwise distinct. -/
theorem C5_dense_indices (l : List RawItem) (fetch : String → FetchOutcome) :
    (normalizeSimple l).length = l.length ∧
    (normalizeSimple l).map (fun r => r.index) = List.range' 1 l.length ∧
    (sync_crawl_urls fetch l).length = l.length ∧
    (sync_crawl_urls fetch l).map (fun r => r.index) = List.range' 1 l.length ∧
    ((normalizeSimple l).map (fun r => r.index)).Nodup ∧
    ((sync_crawl_urls fetch l).map (fun r => r.index)).Nodup := by
  have h1 : (normalizeSimple l).map (fun r => r.index) = List.range' 1 l.length :=
    normalizeSimpleFrom_map_index l 0
  have h2 : (sync_crawl_urls fetch l).map (fun r => r.index) = List.range' 1 l.length := by
    unfold sync_crawl_urls
    rcases l with _ | ⟨a, t⟩
    · rfl
    · simpa using syncCrawlFrom_map_index fetch (a :: t) 0
  have len1 : (normalizeSimple l).length = l.length := by
    have := congrArg List.length h1
    simpa using this
  have len2 : (sync_crawl_urls fetch l).length = l.length := by
    have := congrArg List.length h2
    simpa using this
  exact ⟨len1, h1, len2, h2, by rw [h1]; exact List.nodup_range' _ _,
    by rw [h2]; exact List.nodup_range' _ _⟩

lemma normalizeSimpleFrom_get? (l : List RawItem) :
    ∀ i k, (normalizeSimpleFrom i l).get? k = (l.get? k).map (fun item =>
      { body := item.get "snippet" ""
        href := item.get "link" ""
        title := item.get "name" ""
        index := i + k + 1 : BingSearchResult }) := by
  induction l with
  | nil => intro i k; rfl
  | cons a t ih =>
    intro i k
    cases k with
    | zero => rfl
    | succ k =>
      simp only [normalizeSimpleFrom, List.get?_cons_succ, ih (i + 1) k]
      have h1 : i + 1 + k = i + (k + 1) := by omega
      rw [h1]

lemma syncCrawlFrom_get? (fetch : String → FetchOutcome) (l : List RawItem) :
    ∀ i k, (syncCrawlFrom fetch i l).get? k = (l.get? k).map (fun item =>
      { body := item.get "snippet" ""
        href := item.get "link" ""
        title := item.get "title" ""
        index := i + k + 1
        content := some (if item.get "link" "" = "" then ""
          else crawl_single_url fetch (item.get "link" "")) : BingSearchResult }) := by
  induction l with
  | nil => intro i k; rfl
  | cons a t ih =>
    intro i k
    cases k with
    | zero => rfl
    | succ k =>
      simp only [syncCrawlFrom, List.get?_cons_succ, ih (i + 1) k]
      have h1 : i + 1 + k = i + (k + 1) := by omega
      rw [h1]

/-- C10 (implicit): report-mode normalization reads the title from the key
`"title"` while simple-mode normalization reads it from `"name"`, so a raw
item of the collaborator-interface shape `{snippet, link, name}` (no
`"title"` key) yields an empty title in report mode and the `name` value in
simple mode — at every batch position. -/
theorem C10_title_key_mismatch (fetch : String → FetchOutcome) (l : List RawItem)
    (k : Nat) (item : RawItem) (nm : String)
    (hk : l.get? k = some item)
    (hTitle : item.entries.lookup "title" = none)
    (hName : item.entries.lookup "name" = some nm) :
    ((sync_crawl_urls fetch l).get? k).map (fun r => r.title) = some "" ∧
    ((normalizeSimple l).get? k).map (fun r => r.title) = some nm := by
  have hne : l ≠ [] := by
    intro h; rw [h] at hk; simp at hk
  constructor
  · have : (sync_crawl_urls fetch l).get? k = (syncCrawlFrom fetch 0 l).get? k := by
      unfold sync_crawl_urls
      rcases l with _ | ⟨a, t⟩
      · simp at hk
      · rfl
    rw [this, syncCrawlFrom_get? fetch l 0 k, hk]
    simp [RawItem.get, hTitle]
  · rw [normalizeSimple, normalizeSimpleFrom_get? l 0 k, hk]
    simp [RawItem.get, hName]

/-- C10 witness: a concrete `{snippet, link, name}` item at position 0. -/
theorem C10_title_key_mismatch_witness :
    ((sync_crawl_urls (fun _ => .ok false none)
        [⟨[("snippet", "s"), ("link", "l"), ("name", "n")]⟩]).get? 0).map
      (fun r => r.title) = some "" ∧
    ((normalizeSimple [⟨[("snippet", "s"), ("link", "l"), ("name", "n")]⟩]).get? 0).map
      (fun r => r.title) = some "n" :=
  C10_title_key_mismatch (fun _ => .ok false none) _ 0 _ "n" rfl (by decide) (by decide)

/-- C8: a content-fetch failure of any caught kind never escapes the batch
step: `_crawl_single_url` is total and maps each failure of a non-empty URL
to a descriptive string scoped to it, and `_sync_crawl_urls` still yields
one entry per raw item (processing continues for every URL in the batch),
each entry's `content` being exactly that per-URL outcome. -/
theorem C8_fetch_failures_contained (fetch : String → FetchOutcome) (l : List RawItem)
    (url e : String) (hurl : url ≠ "") :
    (sync_crawl_urls fetch l).length = l.length ∧
    (∀ k item, l.get? k = some item →
      ((sync_crawl_urls fetch l).get? k).map (fun r => r.content) =
        some (some (if item.get "link" "" = "" then ""
          else crawl_single_url fetch (item.get "link" "")))) ∧
    (fetch url = .requestError e →
      crawl_single_url fetch url = "Failed to crawl content: Network error - " ++ e) ∧
    (fetch url = .valueError e →
      crawl_single_url fetch url = "Failed to crawl content: Invalid response format - " ++ e) ∧
    (fetch url = .otherError e →
      crawl_single_url fetch url = "Failed to crawl content: Unexpected error - " ++ e) := by
  refine ⟨?_, ?_, ?_, ?_, ?_⟩
  · have h := syncCrawlFrom_map_index fetch l 0
    have hlen := congrArg List.length h
    simp only [List.length_map, List.length_range'] at hlen
    unfold sync_crawl_urls
    rcases l with _ | ⟨a, t⟩
    · rfl
    · simpa using hlen
  · intro k item hk
    have : (sync_crawl_urls fetch l).get? k = (syncCrawlFrom fetch 0 l).get? k := by
      unfold sync_crawl_urls
      rcases l with _ | ⟨a, t⟩
      · simp at hk
      · rfl
    rw [this, syncCrawlFrom_get? fetch l 0 k, hk]
    simp
  · intro hf; simp [crawl_single_url, hurl, hf]
  · intro hf; simp [crawl_single_url, hurl, hf]
  · intro hf; simp [crawl_single_url, hurl, hf]

/-- C8 witness: a two-item batch whose first URL fails with a network error
and whose second fails with a parse error still yields two entries, and the
failure strings are the per-URL descriptive messages. -/
theorem C8_fetch_failures_contained_witness :
    (sync_crawl_urls
        (fun u => if u = "a" then .requestError "boom" else .valueError "bad json")
        [⟨[("link", "a")]⟩, ⟨[("link", "b")]⟩]).length = 2 ∧
    crawl_single_url
        (fun u => if u = "a" then .requestError "boom" else .valueError "bad json") "a" =
      "Failed to crawl content: Network error - boom" := by
  have h := C8_fetch_failures_contained
    (fun u => if u = "a" then .requestError "boom" else .valueError "bad json")
    [⟨[("link", "a")]⟩, ⟨[("link", "b")]⟩] "a" "boom" (by decide)
  exact ⟨h.1, h.2.2.1 (by decide)⟩

/-- C1: whenever every search-service response of a `search_section`
invocation is empty or the `{"Results": "No good Bing Search Result was
found"}` sentinel, the handler makes exactly 3 search attempts (initial plus
2 retries) and returns normally with the single placeholder result — title
`"No Results"`, index 1, content stating that nothing was found and drafting
falls back to general knowledge. -/
theorem C1_retry_exhaustion (oracle : Nat → SearchResp) (fetch : String → FetchOutcome)
    (outline : List String) (current_idx : Nat)
    (hidx : current_idx < outline.length)
    (hfail : ∀ n, retryTrigger (oracle n) = true) :
    search_section oracle fetch outline current_idx =
      some { search_results := [{ body := "No search results found after retry"
                                  href := ""
                                  title := "No Results"
                                  index := 1
                                  content := some "No content could be found for this section. The section will be drafted using general knowledge." }]
             attempts := 3 } := by
  have step2 : searchLoop oracle 2 (oracle 3) 3 = (oracle 3, 3) := by
    rw [searchLoop]
    simp [maxRetries]
  have step1 : searchLoop oracle 1 (oracle 2) 2 = (oracle 3, 3) := by
    rw [searchLoop]
    simp [maxRetries, hfail 2, step2]
  have step0 : searchLoop oracle 0 (oracle 1) 1 = (oracle 3, 3) := by
    rw [searchLoop]
    simp [maxRetries, hfail 1, step1]
  simp [search_section, hidx, step0, hfail 3, fallbackPlaceholder]

/-- C1 witness: the constant sentinel-response oracle over a one-section
outline. -/
theorem C1_retry_exhaustion_witness :
    search_section (fun _ => .dict [("Results", "No good Bing Search Result was found")])
        (fun _ => .ok false none) ["A"] 0 =
      some { search_results := [{ body := "No search results found after retry"
                                  href := ""
                                  title := "No Results"
                                  index := 1
                                  content := some "No content could be found for this section. The section will be drafted using general knowledge." }]
             attempts := 3 } :=
  C1_retry_exhaustion _ _ ["A"] 0 (by decide) (fun _ => by decide)

lemma runSections_spec (searchRes : Nat → List BingSearchResult) (draftOf : Nat → String) :
    ∀ (k : Nat) (s : WorkflowState), s.current_idx < s.outline.length →
      (runSections searchRes draftOf k s).1.outline = s.outline ∧
      (runSections searchRes draftOf k s).1.current_idx = s.outline.length - 1 ∧
      (runSections searchRes draftOf k s).1.section_drafts.length =
        s.section_drafts.length + (s.outline.length - s.current_idx) ∧
      (∀ t ∈ (runSections searchRes draftOf k s).2,
        t.outline = s.outline ∧ t.current_idx < s.outline.length) := by
  intro k s
  induction k, s using runSections.induct searchRes draftOf with
  | case1 k s s1 s2 h s3 ih =>
    intro hlt
    have hO := h
    simp only [s2, s1, search_section_apply, draft_section_apply, should_continue] at h
    have hc : s.current_idx + 1 < s.outline.length := by
      by_contra hcon
      rw [if_neg hcon] at h
      exact absurd h (by decide)
    simp only [s3, s2, s1, search_section_apply, draft_section_apply, advance_index] at ih
    have ih2 := ih (by simpa using hc)
    rw [runSections]
    rw [dif_pos hO]
    simp only [s3, s2, s1, search_section_apply, draft_section_apply, advance_index] at ih2 ⊢
    refine ⟨by simpa using ih2.1, by simpa using ih2.2.1, ?_, ?_⟩
    · have h3 := ih2.2.2.1
      simp at h3 ⊢
      omega
    · intro t ht
      simp only [List.mem_cons] at ht
      rcases ht with rfl | rfl | rfl | ht
      · exact ⟨rfl, hlt⟩
      · exact ⟨rfl, hlt⟩
      · exact ⟨rfl, by simpa using hc⟩
      · have h4 := ih2.2.2.2 t ht
        simpa using h4
  | case2 k s s1 s2 h =>
    intro hlt
    have hO := h
    simp only [s2, s1, search_section_apply, draft_section_apply, should_continue] at h
    have hidx : ¬ s.current_idx + 1 < s.outline.length := by
      intro hcon
      rw [if_pos hcon] at h
      exact h rfl
    rw [runSections]
    rw [dif_neg hO]
    refine ⟨by simp [s2, s1, search_section_apply, draft_section_apply],
      by simp [s2, s1, search_section_apply, draft_section_apply]; omega,
      by simp [s2, s1, search_section_apply, draft_section_apply]; omega, ?_⟩
    intro t ht
    simp only [s2, s1, search_section_apply, draft_section_apply, List.mem_cons,
      List.not_mem_nil, or_false] at ht
    rcases ht with rfl | rfl
    · exact ⟨rfl, hlt⟩
    · exact ⟨rfl, hlt⟩

/-- C2: in every report run over a non-empty outline of `N` titles (entered
with the fresh `section_drafts` every run starts from), the state at the
moment the conditional edge after `draft_section` selects `compile_report`
has `N` section drafts and cursor `N - 1`; and `should_continue` returns
`"continue"` exactly when `current_idx + 1 < len(outline)`, `"finish"`
otherwise. -/
theorem C2_drafts_complete_before_compile (searchRes : Nat → List BingSearchResult)
    (draftOf : Nat → String) (plan : List String) (s0 : WorkflowState)
    (hN : 0 < plan.length) (hdrafts : s0.section_drafts = []) :
    ((runSections searchRes draftOf 0
        { s0 with outline := plan, current_idx := 0 }).1.section_drafts.length = plan.length ∧
     (runSections searchRes draftOf 0
        { s0 with outline := plan, current_idx := 0 }).1.current_idx = plan.length - 1) ∧
    (∀ s : WorkflowState, should_continue s = "continue" ↔
       s.current_idx + 1 < s.outline.length) ∧
    (∀ s : WorkflowState, should_continue s = "finish" ↔
       ¬ s.current_idx + 1 < s.outline.length) := by
  refine ⟨?_, ?_, ?_⟩
  · have h := runSections_spec searchRes draftOf 0
      { s0 with outline := plan, current_idx := 0 } (by simpa using hN)
    constructor
    · have h3 := h.2.2.1
      simpa [hdrafts] using h3
    · simpa using h.2.1
  · intro s
    by_cases hc : s.current_idx + 1 < s.outline.length
    · simp [should_continue, hc]
    · simp [should_continue, hc]
  · intro s
    by_cases hc : s.current_idx + 1 < s.outline.length
    · simp [should_continue, hc]
    · simp [should_continue, hc]

/-- C2 witness: outline `["A", "B"]` with constant collaborator oracles. -/
theorem C2_drafts_complete_before_compile_witness :
    ((runSections (fun _ => []) (fun _ => "d") 0
        { messages := [], outline := ["A", "B"], current_idx := 0, search_results := [],
          section_drafts := [] }).1.section_drafts.length = 2 ∧
     (runSections (fun _ => []) (fun _ => "d") 0
        { messages := [], outline := ["A", "B"], current_idx := 0, search_results := [],
          section_drafts := [] }).1.current_idx = 1) := by
  have h := C2_drafts_complete_before_compile (fun _ => []) (fun _ => "d") ["A", "B"]
    { messages := [], outline := [], current_idx := 0, search_results := [],
      section_drafts := [] } (by decide) rfl
  exact h.1

/-- C3: throughout a report run over a planned outline of `N ≥ 1` sections,
`current_idx` stays within `[0, N]` at every state the run passes through,
and in fact never equals `N` — so in particular it equals `N` at no point
other than the instant before compilation, as claimed. -/
theorem C3_cursor_in_bounds (plan : List String) (searchRes : Nat → List BingSearchResult)
    (draftOf : Nat → String) (llm : String → String) (s0 : WorkflowState)
    (hN : 0 < plan.length) :
    ∀ t ∈ (runReport plan searchRes draftOf llm s0).2,
      t.current_idx ≤ plan.length ∧ t.current_idx ≠ plan.length := by
  intro t ht
  have hspec := runSections_spec searchRes draftOf 0
    { s0 with outline := plan, current_idx := 0 } (by simpa using hN)
  simp only [runReport] at ht
  rcases List.mem_cons.mp ht with rfl | ht2
  · simp
    omega
  rcases List.mem_append.mp ht2 with ht3 | ht4
  · have hmem := hspec.2.2.2 t ht3
    simp at hmem
    omega
  · simp at ht4
    subst ht4
    simp [compile_report]
    omega

/-- C3 witness: the final state of a concrete two-section run is on the
trace and satisfies the bound. -/
theorem C3_cursor_in_bounds_witness :
    (runReport ["A", "B"] (fun _ => []) (fun _ => "d") (fun _ => "r")
        { messages := [], outline := [], current_idx := 0, search_results := [],
          section_drafts := [] }).1.current_idx ≤ 2 ∧
    (runReport ["A", "B"] (fun _ => []) (fun _ => "d") (fun _ => "r")
        { messages := [], outline := [], current_idx := 0, search_results := [],
          section_drafts := [] }).1.current_idx ≠ 2 := by
  have h := C3_cursor_in_bounds ["A", "B"] (fun _ => []) (fun _ => "d") (fun _ => "r")
    { messages := [], outline := [], current_idx := 0, search_results := [],
      section_drafts := [] } (by decide)
  exact h _ (by simp [runReport])

lemma data_append (x y : String) : (x ++ y).data = x.data ++ y.data := rfl

lemma mem_joinSep_sub (sep : String) (ds : List String) (d : String) (hd : d ∈ ds) :
    d.data <:+: (joinSep sep ds).data := by
  induction ds with
  | nil => simp at hd
  | cons a t ih =>
    rcases List.mem_cons.mp hd with rfl | hmem
    · cases t with
      | nil => exact ⟨[], [], by simp [joinSep]⟩
      | cons b t2 =>
        refine ⟨[], sep.data ++ (joinSep sep (b :: t2)).data, ?_⟩
        simp only [joinSep, data_append, List.nil_append, List.append_assoc]
    · cases t with
      | nil => simp at hmem
      | cons b t2 =>
        obtain ⟨pre, post, hp⟩ := ih hmem
        refine ⟨a.data ++ sep.data ++ pre, post, ?_⟩
        simp only [joinSep, data_append, List.append_assoc]
        simp only [← List.append_assoc, hp]

/-- C7 counterexample: the claim — every section draft appears
character-for-character in the final message produced by `compile_report` —
fails at a concrete input: with a completion service returning the empty
string for every prompt and `section_drafts = ["A"]`, the final message does
not contain the draft `"A"` at all. -/
theorem C7_verbatim_counterexample :
    ¬ ("A".data <:+:
      ((compile_report (fun _ => "")
          { messages := [], outline := ["T"], current_idx := 0, search_results := [],
            section_drafts := ["A"] }).messages.getLastD "").data) := by
  rintro ⟨pre, post, h⟩
  have hlen := congrArg List.length h
  simp [compile_report] at hlen

/-- C7 (amended): `compile_report` assembles the compiler prompt as the
fixed editor instruction followed by the section drafts joined verbatim with
blank-line separators — every draft appears character-for-character in that
prompt — and the final appended message is the completion service's response
to that prompt; verbatim inclusion in the final message itself is delegated
to the (opaque) completion service, not enforced by the code. -/
theorem C7_prompt_contains_drafts (llm : String → String) (s : WorkflowState) (d : String)
    (hd : d ∈ s.section_drafts) :
    (compile_report llm s).messages =
      s.messages ++ [llm (reportIntro ++ joinSep "\n\n" s.section_drafts)] ∧
    d.data <:+: (reportIntro ++ joinSep "\n\n" s.section_drafts).data := by
  refine ⟨rfl, ?_⟩
  obtain ⟨pre, post, hp⟩ := mem_joinSep_sub "\n\n" s.section_drafts d hd
  exact ⟨reportIntro.data ++ pre, post, by
    simp only [data_append, List.append_assoc]
    simp only [← List.append_assoc, hp]⟩

/-- C7 witness: drafts `["X", "Y"]`; the draft `"X"` appears verbatim in
the compiler prompt and the final message is the completion of that
prompt. -/
theorem C7_prompt_contains_drafts_witness :
    (compile_report (fun _ => "z")
        { messages := [], outline := [], current_idx := 0, search_results := [],
          section_drafts := ["X", "Y"] }).messages =
      [] ++ [(fun _ : String => "z") (reportIntro ++ joinSep "\n\n" ["X", "Y"])] ∧
    "X".data <:+: (reportIntro ++ joinSep "\n\n" ["X", "Y"]).data :=
  C7_prompt_contains_drafts (fun _ => "z")
    { messages := [], outline := [], current_idx := 0, search_results := [],
      section_drafts := ["X", "Y"] } "X" (by simp)

/-- A snapshot record is well-formed when `_parse_single_step` accepts it
(index-independent: the step index is only stored, never examined). -/
def wfEntry (fromIso : String → Option Nat) (now : Nat) (e : SnapEntry) : Bool :=
  (parseSingleStep fromIso now e 0).isSome

lemma parseSingleStep_index (fromIso : String → Option Nat) (now : Nat) (e : SnapEntry)
    (i : Nat) :
    parseSingleStep fromIso now e i =
      (parseSingleStep fromIso now e 0).map (fun st => { st with step_number := i }) := by
  cases e with
  | short n => rfl
  | record sd nn cfg md ts par ex =>
    simp only [parseSingleStep]
    cases parseTimestamp fromIso now ts with
    | none => rfl
    | some t =>
      simp only
      cases getStepDescription (getNodeName nn md) sd with
      | none => rfl
      | some desc => rfl

lemma parseLoop_wf (fromIso : String → Option Nat) (now : Nat) :
    ∀ (l : List SnapEntry) (i : Nat) (s0 : List StepInfo) (t0 : String),
      (∀ e ∈ l, wfEntry fromIso now e = true) →
      (parseLoop fromIso now l i s0 t0).1.map (fun st => st.step_number) =
        s0.map (fun st => st.step_number) ++ List.range' i l.length := by
  intro l
  induction l with
  | nil =>
    intro i s0 t0 h
    simp [parseLoop]
  | cons e rest ih =>
    intro i s0 t0 h
    have hwf := h e (List.mem_cons_self e rest)
    unfold wfEntry at hwf
    obtain ⟨st0, hst0⟩ := Option.isSome_iff_exists.mp hwf
    have hi : parseSingleStep fromIso now e i = some { st0 with step_number := i } := by
      rw [parseSingleStep_index, hst0]
      rfl
    simp only [parseLoop, hi]
    rw [ih (i + 1) _ _ (fun e' he' => h e' (List.mem_cons_of_mem e he'))]
    simp [List.range'_succ]

/-- C4: on a newest-first list of `N` well-formed snapshot records,
`parse_state_history` returns `total_steps = N` and steps numbered
`0 … N-1` in chronological (oldest-first) order — the reversal of the input
order. -/
theorem C4_history_roundtrip (fromIso : String → Option Nat) (now : Nat)
    (raw_history : List SnapEntry)
    (h : ∀ e ∈ raw_history, wfEntry fromIso now e = true) :
    (parse_state_history fromIso now raw_history).total_steps = raw_history.length ∧
    (parse_state_history fromIso now raw_history).steps.map (fun st => st.step_number) =
      List.range raw_history.length := by
  cases raw_history with
  | nil => exact ⟨rfl, rfl⟩
  | cons a t =>
    have hl := parseLoop_wf fromIso now ((a :: t).reverse) 0 [] ""
      (fun e he => h e (List.mem_reverse.mp he))
    simp only [List.map_nil, List.nil_append, List.length_reverse] at hl
    have hrange : List.range' 0 (t.length + 1) = List.range (t.length + 1) :=
      (List.range_eq_range' (t.length + 1)).symm
    constructor
    · have hlen := congrArg List.length hl
      simp only [List.length_map, List.length_range'] at hlen
      simpa [parse_state_history] using hlen
    · simpa [parse_state_history, hrange] using hl

/-- A concrete well-formed snapshot (newest). -/
def snapNew : SnapEntry :=
  .record (.dict ⟨[], [], some true, none, none, none⟩)
    ["generate_answer"] (.dict (some "t1")) none (some "2024-01-01T00:00:02Z") () 0

/-- A concrete well-formed snapshot (oldest). -/
def snapOld : SnapEntry :=
  .record (.dict ⟨[.dict (some "hi") (some "human") (some "m1") none], [], none, none,
      none, none⟩)
    [] (.dict (some "t1")) (some ["decide_search"]) (some "2024-01-01T00:00:01Z") () 0

/-- C4 witness: two synthetic snapshots supplied newest-first parse to two
steps numbered `0, 1`. -/
theorem C4_history_roundtrip_witness :
    (parse_state_history (fun _ => some 42) 7 [snapNew, snapOld]).total_steps = 2 ∧
    (parse_state_history (fun _ => some 42) 7 [snapNew, snapOld]).steps.map
      (fun st => st.step_number) = List.range 2 :=
  C4_history_roundtrip (fun _ => some 42) 7 [snapNew, snapOld] (by decide)

lemma replaceAllAux_single (c d : Char) :
    ∀ (fuel : Nat) (s : List Char), s.length ≤ fuel →
      replaceAllAux [c] [d] fuel s = s.map (fun x => if x = c then d else x) := by
  intro fuel
  induction fuel with
  | zero =>
    intro s h
    have hnil : s = [] := List.length_eq_zero.mp (Nat.le_zero.mp h)
    subst hnil
    rfl
  | succ f ih =>
    intro s h
    cases s with
    | nil => rfl
    | cons x rest =>
      simp only [replaceAllAux]
      by_cases hx : x = c
      · rw [if_pos ⟨by simp, by simp [List.isPrefixOf, hx]⟩]
        have hdrop : List.drop [c].length (x :: rest) = rest := by simp
        rw [hdrop, ih rest (by simpa using h)]
        simp [hx]
      · rw [if_neg]
        · simp only [List.map_cons, if_neg hx]
          rw [ih rest (by simpa using h)]
        · rintro ⟨-, hpre⟩
          simp [List.isPrefixOf] at hpre
          exact hx hpre.symm

lemma pyReplace_single (c d : Char) (s : String) :
    pyReplace ⟨[c]⟩ ⟨[d]⟩ s = ⟨s.data.map (fun x => if x = c then d else x)⟩ :=
  congrArg String.mk (replaceAllAux_single c d s.data.length s.data le_rfl)

lemma map_noOcc (c d : Char) (l : List Char) (h : c ∉ l) :
    l.map (fun x => if x = c then d else x) = l := by
  induction l with
  | nil => rfl
  | cons x rest ih =>
    simp only [List.mem_cons, not_or] at h
    simp only [List.map_cons, if_neg (Ne.symm h.1), ih h.2]

lemma sepJoinC_map (f : Char → Char) (hf : f ',' = ',') :
    ∀ ls : List (List Char), (sepJoinC ls).map f = sepJoinC (ls.map (fun l => l.map f)) := by
  intro ls
  induction ls with
  | nil => rfl
  | cons a t ih =>
    cases t with
    | nil => rfl
    | cons b t2 =>
      simp only [sepJoinC, List.map_append, List.map_cons, hf]
      rw [ih]
      rfl

lemma renderPairC_swap (q : Char) (hq : (if q = squote then dquote else q) = dquote)
    (kv : String × String) (h1 : squote ∉ kv.1.data) (h2 : squote ∉ kv.2.data) :
    (renderPairC q kv).map (fun x => if x = squote then dquote else x) =
      renderPairC dquote kv := by
  have hcolon : (if ':' = squote then dquote else ':') = ':' := by decide
  simp only [renderPairC, List.map_cons, List.map_append, List.map_nil, hq, hcolon,
    map_noOcc squote dquote kv.1.data h1, map_noOcc squote dquote kv.2.data h2]

lemma renderObjC_swap (q : Char) (hq : (if q = squote then dquote else q) = dquote)
    (it : RawItem) (h : ∀ kv ∈ it.entries, squote ∉ kv.1.data ∧ squote ∉ kv.2.data) :
    (renderObjC q it).map (fun x => if x = squote then dquote else x) =
      renderObjC dquote it := by
  have hcomma : (fun x => if x = squote then dquote else x) ',' = ',' := by decide
  have hlb : (if '{' = squote then dquote else '{') = '{' := by decide
  have hrb : (if '}' = squote then dquote else '}') = '}' := by decide
  have hinner : (it.entries.map (renderPairC q)).map
      (fun l => l.map (fun x => if x = squote then dquote else x)) =
      it.entries.map (renderPairC dquote) := by
    rw [List.map_map]
    exact List.map_congr_left fun kv hkv => by
      simpa using renderPairC_swap q hq kv (h kv hkv).1 (h kv hkv).2
  simp only [renderObjC, List.map_cons, List.map_append, List.map_nil, hlb, hrb]
  rw [sepJoinC_map (fun x => if x = squote then dquote else x) hcomma, hinner]

lemma renderResp_swap (q : Char) (hq : (if q = squote then dquote else q) = dquote)
    (items : List RawItem) (h : plainItems items) :
    ((renderResp q items).data).map (fun x => if x = squote then dquote else x) =
      (renderResp dquote items).data := by
  have hcomma : (fun x => if x = squote then dquote else x) ',' = ',' := by decide
  have hlb : (if '[' = squote then dquote else '[') = '[' := by decide
  have hrb : (if ']' = squote then dquote else ']') = ']' := by decide
  have hinner : (items.map (renderObjC q)).map
      (fun l => l.map (fun x => if x = squote then dquote else x)) =
      items.map (renderObjC dquote) := by
    rw [List.map_map]
    exact List.map_congr_left fun it hit => by
      simpa using renderObjC_swap q hq it (fun kv hkv =>
        ⟨((h it hit kv hkv).1).1, ((h it hit kv hkv).2).1⟩)
  simp only [renderResp, List.map_cons, List.map_append, List.map_nil, hlb, hrb]
  rw [sepJoinC_map (fun x => if x = squote then dquote else x) hcomma, hinner]

lemma scanStringBody_render (v : List Char) (rest : List Char) (h : dquote ∉ v) :
    scanStringBody (v ++ dquote :: rest) = some (v, rest) := by
  induction v with
  | nil => simp [scanStringBody]
  | cons x v2 ih =>
    simp only [List.mem_cons, not_or] at h
    simp only [List.cons_append, scanStringBody, if_neg (Ne.symm h.1), List.append_eq]
    rw [ih h.2]

lemma parseStringLit_render (v : String) (rest : List Char) (h : dquote ∉ v.data) :
    parseStringLit (dquote :: (v.data ++ dquote :: rest)) = some (v, rest) := by
  rw [parseStringLit]
  rw [if_pos rfl, scanStringBody_render v.data rest h]

lemma parseKV_render (kv : String × String) (rest : List Char)
    (h1 : dquote ∉ kv.1.data) (h2 : dquote ∉ kv.2.data) :
    parseKV (renderPairC dquote kv ++ rest) = some (kv, rest) := by
  have hsh : renderPairC dquote kv ++ rest =
      dquote :: (kv.1.data ++ dquote :: ':' :: dquote :: (kv.2.data ++ dquote :: rest)) := by
    simp [renderPairC]
  rw [hsh]
  simp only [parseKV,
    parseStringLit_render kv.1 (':' :: dquote :: (kv.2.data ++ dquote :: rest)) h1,
    parseStringLit_render kv.2 rest h2]

lemma parseObjTail_render :
    ∀ (entries : List (String × String)) (fuel : Nat) (rest : List Char),
      entries ≠ [] → entries.length ≤ fuel →
      (∀ kv ∈ entries, dquote ∉ kv.1.data ∧ dquote ∉ kv.2.data) →
      parseObjTail fuel (sepJoinC (entries.map (renderPairC dquote)) ++ '}' :: rest) =
        some (entries, rest) := by
  intro entries
  induction entries with
  | nil => intro fuel rest hne; exact absurd rfl hne
  | cons kv more ih =>
    intro fuel rest hne hf hp
    cases fuel with
    | zero => simp at hf
    | succ f =>
      have hkv := hp kv (List.mem_cons_self kv more)
      cases more with
      | nil =>
        have hsh : sepJoinC ([kv].map (renderPairC dquote)) ++ '}' :: rest =
            renderPairC dquote kv ++ '}' :: rest := by
          simp [sepJoinC]
        rw [hsh]
        simp only [parseObjTail, parseKV_render kv ('}' :: rest) hkv.1 hkv.2]
      | cons kv2 more2 =>
        have hsh : sepJoinC ((kv :: kv2 :: more2).map (renderPairC dquote)) ++ '}' :: rest =
            renderPairC dquote kv ++
              (',' :: (sepJoinC ((kv2 :: more2).map (renderPairC dquote)) ++ '}' :: rest)) := by
          simp [sepJoinC]
        rw [hsh]
        simp only [parseObjTail,
          parseKV_render kv (',' :: (sepJoinC ((kv2 :: more2).map (renderPairC dquote)) ++
            '}' :: rest)) hkv.1 hkv.2]
        rw [ih f rest (by simp) (by simpa using hf)
          (fun e he => hp e (List.mem_cons_of_mem kv he))]

lemma sepJoin_pairs_head (kv : String × String) (more : List (String × String))
    (tail : List Char) :
    sepJoinC ((kv :: more).map (renderPairC dquote)) ++ tail =
      dquote :: ((sepJoinC ((kv :: more).map (renderPairC dquote)) ++ tail).tail) := by
  cases more <;> simp [sepJoinC, renderPairC]

lemma parseObj_render (it : RawItem) (fuel : Nat) (rest : List Char)
    (hf : it.entries.length ≤ fuel)
    (hp : ∀ kv ∈ it.entries, dquote ∉ kv.1.data ∧ dquote ∉ kv.2.data) :
    parseObj fuel (renderObjC dquote it ++ rest) = some (it, rest) := by
  obtain ⟨entries⟩ := it
  cases entries with
  | nil =>
    have hsh : renderObjC dquote ⟨[]⟩ ++ rest = '{' :: '}' :: rest := by
      simp [renderObjC, sepJoinC]
    rw [hsh]
    simp [parseObj]
  | cons kv more =>
    have hsh : renderObjC dquote ⟨kv :: more⟩ ++ rest =
        '{' :: (sepJoinC ((kv :: more).map (renderPairC dquote)) ++ '}' :: rest) := by
      simp [renderObjC]
    rw [hsh, sepJoin_pairs_head kv more ('}' :: rest)]
    simp only [parseObj, if_neg (show ¬ (dquote = '}') by decide)]
    rw [← sepJoin_pairs_head kv more ('}' :: rest),
      parseObjTail_render (kv :: more) fuel rest (by simp) hf hp]

/-- Fuel needed to parse the items of an array body. -/
def itemsFuel (items : List RawItem) : Nat :=
  items.foldr (fun it acc => it.entries.length + 1 + acc) 0

lemma parseArrTail_render :
    ∀ (items : List RawItem) (fuel : Nat) (rest : List Char),
      items ≠ [] → itemsFuel items ≤ fuel →
      (∀ it ∈ items, ∀ kv ∈ it.entries, dquote ∉ kv.1.data ∧ dquote ∉ kv.2.data) →
      parseArrTail fuel (sepJoinC (items.map (renderObjC dquote)) ++ ']' :: rest) =
        some (items, rest) := by
  intro items
  induction items with
  | nil => intro fuel rest hne; exact absurd rfl hne
  | cons it more ih =>
    intro fuel rest hne hf hp
    cases fuel with
    | zero => simp [itemsFuel] at hf
    | succ f =>
      simp only [itemsFuel, List.foldr_cons] at hf
      have hit := hp it (List.mem_cons_self it more)
      cases more with
      | nil =>
        have hsh : sepJoinC ([it].map (renderObjC dquote)) ++ ']' :: rest =
            renderObjC dquote it ++ ']' :: rest := by
          simp [sepJoinC]
        rw [hsh]
        simp only [parseArrTail,
          parseObj_render it f (']' :: rest) (by omega) hit]
      | cons it2 more2 =>
        have hsh : sepJoinC ((it :: it2 :: more2).map (renderObjC dquote)) ++ ']' :: rest =
            renderObjC dquote it ++
              (',' :: (sepJoinC ((it2 :: more2).map (renderObjC dquote)) ++ ']' :: rest)) := by
          simp [sepJoinC]
        rw [hsh]
        simp only [parseArrTail,
          parseObj_render it f (',' :: (sepJoinC ((it2 :: more2).map (renderObjC dquote)) ++
            ']' :: rest)) (by omega) hit]
        rw [ih f rest (by simp) (by simp only [itemsFuel, List.foldr_cons] at *; omega)
          (fun e he => hp e (List.mem_cons_of_mem it he))]

lemma len_le_sum : ∀ l : List Nat, (∀ x ∈ l, 1 ≤ x) → l.length ≤ l.sum := by
  intro l
  induction l with
  | nil => intro; simp
  | cons a t ih =>
    intro h
    have ha := h a (List.mem_cons_self a t)
    have ht := ih (fun x hx => h x (List.mem_cons_of_mem a hx))
    simp only [List.length_cons, List.sum_cons]
    omega

lemma sepJoinC_len_sum : ∀ ls : List (List Char), (ls.map List.length).sum ≤ (sepJoinC ls).length := by
  intro ls
  induction ls with
  | nil => simp [sepJoinC]
  | cons a t ih =>
    cases t with
    | nil => simp [sepJoinC]
    | cons b t2 =>
      simp only [sepJoinC, List.map_cons, List.sum_cons, List.length_append,
        List.length_cons] at ih ⊢
      omega

lemma renderObjC_len (q : Char) (it : RawItem) :
    it.entries.length + 1 ≤ (renderObjC q it).length := by
  have h1 : (it.entries.map (renderPairC q)).map List.length =
      it.entries.map (fun kv => (renderPairC q kv).length) := by
    rw [List.map_map]
    rfl
  have h2 := sepJoinC_len_sum (it.entries.map (renderPairC q))
  rw [h1] at h2
  have h3 : it.entries.length ≤ (it.entries.map (fun kv => (renderPairC q kv).length)).sum := by
    have := len_le_sum (it.entries.map (fun kv => (renderPairC q kv).length))
      (fun x hx => by
        obtain ⟨kv, _, rfl⟩ := List.mem_map.mp hx
        simp [renderPairC])
    simpa using this
  simp only [renderObjC, List.length_cons, List.length_append]
  omega

lemma itemsFuel_eq (items : List RawItem) :
    itemsFuel items = (items.map (fun it => it.entries.length + 1)).sum := by
  induction items with
  | nil => rfl
  | cons a t ih => simp [itemsFuel, List.foldr_cons, List.sum_cons] at ih ⊢; omega

lemma itemsFuel_le (items : List RawItem) :
    itemsFuel items ≤ (sepJoinC (items.map (renderObjC dquote))).length := by
  have h1 := sepJoinC_len_sum (items.map (renderObjC dquote))
  have h2 : (items.map (renderObjC dquote)).map List.length =
      items.map (fun it => (renderObjC dquote it).length) := by
    rw [List.map_map]
    rfl
  rw [h2] at h1
  have h3 : (items.map (fun it => it.entries.length + 1)).sum ≤
      (items.map (fun it => (renderObjC dquote it).length)).sum :=
    List.sum_le_sum (fun it _ => renderObjC_len dquote it)
  rw [itemsFuel_eq]
  omega

lemma sepJoin_objs_head (it : RawItem) (more : List RawItem) (tail : List Char) :
    sepJoinC ((it :: more).map (renderObjC dquote)) ++ tail =
      '{' :: ((sepJoinC ((it :: more).map (renderObjC dquote)) ++ tail).tail) := by
  cases more <;> simp [sepJoinC, renderObjC]

lemma jsonLoadsList_render (items : List RawItem)
    (hp : ∀ it ∈ items, ∀ kv ∈ it.entries, dquote ∉ kv.1.data ∧ dquote ∉ kv.2.data) :
    jsonLoadsList (renderResp dquote items) = some items := by
  cases items with
  | nil => rfl
  | cons it more =>
    have hdata : (renderResp dquote (it :: more)).data =
        '[' :: (sepJoinC ((it :: more).map (renderObjC dquote)) ++ [']']) := by
      simp [renderResp]
    have hfuel : itemsFuel (it :: more) ≤ (renderResp dquote (it :: more)).data.length := by
      have := itemsFuel_le (it :: more)
      rw [hdata]
      simp only [List.length_cons, List.length_append]
      omega
    rw [hdata] at hfuel
    simp only [jsonLoadsList, hdata]
    rw [sepJoin_objs_head it more [']']]
    split
    next heq => simp at heq
    next =>
      rw [← sepJoin_objs_head it more [']']]
      rw [parseArrTail_render (it :: more)
        ('[' :: (sepJoinC ((it :: more).map (renderObjC dquote)) ++ [']'])).length []
        (by simp) hfuel hp]

/-- A raw item whose snippet value contains an apostrophe. -/
def apostItem : RawItem :=
  ⟨[("snippet", ⟨['i', 't', squote, 's']⟩), ("link", "l"), ("name", "n")]⟩

/-- C9 counterexample: the claim — `run_search` successfully parses the
response whether its structured text is single- or double-quoted — fails at
a concrete input: for the one-item list whose snippet is `it`+apostrophe+`s`,
the double-quoted rendering is corrupted by `replace("'", '"')` and the
parse raises (modelled as `none`) instead of succeeding. -/
theorem C9_quote_tolerance_counterexample :
    run_search (renderResp dquote [apostItem]) = none := by
  rfl

/-- C9 (amended): restricted to item lists whose keys and values contain no
quote character of either kind and no backslash, `run_search` parses the
canonical single-quoted and double-quoted renderings of the same items to
the same outcome, namely the normalized batch of those items (or the
placeholder for an empty list). -/
theorem C9_quote_tolerance_amended (items : List RawItem) (h : plainItems items) :
    run_search (renderResp squote items) = run_search (renderResp dquote items) ∧
    run_search (renderResp dquote items) =
      some (if items.isEmpty then [noResultsPlaceholder] else normalizeSimple items) := by
  have hq1 : (if squote = squote then dquote else squote) = dquote := by decide
  have hq2 : (if dquote = squote then dquote else dquote) = dquote := by decide
  have hrepl1 : pyReplace ⟨[squote]⟩ ⟨[dquote]⟩ (renderResp squote items) =
      renderResp dquote items := by
    rw [pyReplace_single]
    exact congrArg String.mk (renderResp_swap squote hq1 items h)
  have hrepl2 : pyReplace ⟨[squote]⟩ ⟨[dquote]⟩ (renderResp dquote items) =
      renderResp dquote items := by
    rw [pyReplace_single]
    exact congrArg String.mk (renderResp_swap dquote hq2 items h)
  have hload : jsonLoadsList (renderResp dquote items) = some items :=
    jsonLoadsList_render items
      (fun it hit kv hkv => ⟨((h it hit kv hkv).1).2.1, ((h it hit kv hkv).2).2.1⟩)
  constructor
  · simp only [run_search, hrepl1, hrepl2]
  · simp only [run_search, hrepl2, hload]
    split <;> rfl

/-- C9 witness: a concrete quote-free `{snippet, link, name}` item parses
identically under both quoting conventions. -/
theorem C9_quote_tolerance_amended_witness :
    run_search (renderResp squote [⟨[("snippet", "s1"), ("link", "l1"), ("name", "n1")]⟩]) =
      run_search (renderResp dquote [⟨[("snippet", "s1"), ("link", "l1"), ("name", "n1")]⟩]) ∧
    run_search (renderResp dquote [⟨[("snippet", "s1"), ("link", "l1"), ("name", "n1")]⟩]) =
      some (if ([⟨[("snippet", "s1"), ("link", "l1"), ("name", "n1")]⟩] : List RawItem).isEmpty
        then [noResultsPlaceholder]
        else normalizeSimple [⟨[("snippet", "s1"), ("link", "l1"), ("name", "n1")]⟩]) :=
  C9_quote_tolerance_amended [⟨[("snippet", "s1"), ("link", "l1"), ("name", "n1")]⟩]
    (by decide)
